import Mathlib

/-!
Shallow embedding of the task status/lifecycle engine of the `datahub`
repository (`src/datahub/core/models.py` and `src/datahub/core/views.py`).

Dates and timestamps are modelled as `Nat` (days / instants); `timezone.now()`
values are passed in as explicit `today` / `now` parameters.  Database tables
are lists of records; Django querysets `filter(...).first()` become
`List.find?`, `queryset.update(...)` becomes a pk-guarded `List.map`, and a
model `save()` becomes an upsert of the row followed by the signal handlers,
exactly as the `pre_save` / `post_save` receivers run in the source.
-/

namespace Datahub

/-- ASCII lowering of one character; the semantic-role keys matched by the
source (`"final"`, `"exec"`, `"pend"`) are ASCII, so this captures Python's
`str.lower()` / Django's `icontains` on every name the engine inspects. -/
def lowerChar (c : Char) : Char :=
  if 65 ≤ c.toNat ∧ c.toNat ≤ 90 then Char.ofNat (c.toNat + 32) else c

/-- A string, lowercased, as a list of characters. -/
def strLower (s : String) : List Char := s.data.map lowerChar

/-- `lcStarts n l` : the character list `n` is an initial segment of `l`
(Python `str.startswith`). -/
def lcStarts : List Char → List Char → Bool
  | [], _ => true
  | _ :: _, [] => false
  | p :: ps, x :: xs => p == x && lcStarts ps xs

/-- `lcHas n l` : the character list `n` occurs contiguously inside `l`
(Python `in` / Django `icontains` after lowering). -/
def lcHas (n : List Char) : List Char → Bool
  | [] => lcStarts n []
  | x :: xs => lcStarts n (x :: xs) || lcHas n xs

/-- Lowercased name starts with the (lowercase) key. -/
def nameStarts (s : String) (key : List Char) : Bool := lcStarts key (strLower s)

/-- Lowercased name contains the (lowercase) key (`nome__icontains`). -/
def nameHas (s : String) (key : List Char) : Bool := lcHas key (strLower s)

/-- The `"final"` semantic-role key. -/
def finalKey : List Char := strLower "final"

/-- The `"exec"` semantic-role key. -/
def execKey : List Char := strLower "exec"

/-- The `"pend"` semantic-role key. -/
def pendKey : List Char := strLower "pend"

/-- `Situacao` (Status): the fields the lifecycle engine reads.
`cor_hex` and `proximas_situacoes` are presentation-only pass-through. -/
structure Situacao where
  pk : Nat
  nome : String
  padrao : Bool
  pendente : Bool
deriving DecidableEq

/-- `Demanda` (Task): the fields the lifecycle engine reads or writes.
Presentation fields (`titulo`, `nivel`, `tema`, ...) are omitted. -/
structure Demanda where
  pk : Nat
  parent : Option Nat
  situacao : Option Nat
  data_inicio : Option Nat
  data_prazo : Option Nat
  data_fechamento : Option Nat
deriving DecidableEq

/-- `Pendencia` (Pendency): the fields the state machine reads or writes. -/
structure Pendencia where
  pk : Nat
  demanda : Nat
  descricao : String
  resolvida : Bool
  resolvido_em : Option Nat
deriving DecidableEq

/-- The entity store: the three tables the engine touches. -/
structure DB where
  situacoes : List Situacao
  demandas : List Demanda
  pendencias : List Pendencia
deriving DecidableEq

/-- `Situacao.objects.filter(pk=sid).first()` / FK dereference. -/
def findSit (db : DB) (sid : Nat) : Option Situacao :=
  db.situacoes.find? (fun s => s.pk == sid)

/-- `Situacao.objects.filter(padrao=True).first()` (models.py:121). -/
def firstPadrao (db : DB) : Option Situacao :=
  db.situacoes.find? (fun s => s.padrao)

/-- `Situacao.objects.filter(nome__icontains="final").first()` (models.py:167). -/
def firstFinal (db : DB) : Option Situacao :=
  db.situacoes.find? (fun s => nameHas s.nome finalKey)

/-- `Situacao.objects.filter(nome__icontains="exec").first()` (models.py:224). -/
def firstExec (db : DB) : Option Situacao :=
  db.situacoes.find? (fun s => nameHas s.nome execKey)

/-- `Situacao.objects.filter(nome__icontains="pend").first()` (models.py:234). -/
def firstPendSit (db : DB) : Option Situacao :=
  db.situacoes.find? (fun s => nameHas s.nome pendKey)

/-- `Demanda.objects.filter(pk=k).first()`. -/
def findDemanda (db : DB) (k : Nat) : Option Demanda :=
  db.demandas.find? (fun d => d.pk == k)

/-- `Pendencia.objects.filter(pk=k).first()` / `Pendencia.objects.get(pk=k)`. -/
def findPendencia (db : DB) (k : Nat) : Option Pendencia :=
  db.pendencias.find? (fun p => p.pk == k)

/-- `parent.subitens.all()`: children of the demanda with pk `p`. -/
def childrenOf (db : DB) (p : Nat) : List Demanda :=
  db.demandas.filter (fun d => d.parent == some p)

/-- `Demanda.is_final` (models.py:134-139):
`bool(situacao and situacao.nome and situacao.nome.lower().startswith("final"))`.
The FK object is resolved through the store. -/
def isFinalD (db : DB) (d : Demanda) : Bool :=
  match d.situacao with
  | none => false
  | some sid =>
    match findSit db sid with
    | none => false
    | some s => (!(s.nome == "")) && nameStarts s.nome finalKey

/-- `Demanda.objects.filter(pk=k).update(...)` with the field assignments `f`. -/
def updateDemandaRows (db : DB) (k : Nat) (f : Demanda → Demanda) : DB :=
  { db with demandas := db.demandas.map (fun r => if r.pk == k then f r else r) }

/-- `Pendencia.objects.filter(pk=k).update(...)` with the field assignments `f`. -/
def updatePendRows (db : DB) (k : Nat) (f : Pendencia → Pendencia) : DB :=
  { db with pendencias := db.pendencias.map (fun r => if r.pk == k then f r else r) }

/-- `super().save()` on a `Demanda`: update the row if the pk exists,
otherwise insert it. -/
def upsertDemanda (db : DB) (d : Demanda) : DB :=
  if db.demandas.any (fun r => r.pk == d.pk) then
    { db with demandas := db.demandas.map (fun r => if r.pk == d.pk then d else r) }
  else
    { db with demandas := db.demandas ++ [d] }

/-- `save()` on a `Situacao`: update or insert the row. -/
def upsertSituacao (db : DB) (s : Situacao) : DB :=
  if db.situacoes.any (fun r => r.pk == s.pk) then
    { db with situacoes := db.situacoes.map (fun r => if r.pk == s.pk then s else r) }
  else
    { db with situacoes := db.situacoes ++ [s] }

/-- `save()` on a `Pendencia`: update or insert the row. -/
def upsertPendencia (db : DB) (p : Pendencia) : DB :=
  if db.pendencias.any (fun r => r.pk == p.pk) then
    { db with pendencias := db.pendencias.map (fun r => if r.pk == p.pk then p else r) }
  else
    { db with pendencias := db.pendencias ++ [p] }

/-- `max(d for d in dates)` over `dates = [s.data_fechamento or today for s in subs]`
(models.py:164-165).  The source only evaluates this on a non-empty `subs`,
where `foldl max 0` over naturals is exactly Python's `max`. -/
def latestOf (today : Nat) (subs : List Demanda) : Nat :=
  (subs.map (fun s => s.data_fechamento.getD today)).foldl max 0

/-- The body of the `all_final` branch of the cascade loop (models.py:163-171):
set `data_fechamento` of the parent row to the latest child closure, and, when a
`Situacao` whose name contains "final" exists, also set the parent's `situacao`
to it. -/
def cascadeUpdate (today : Nat) (db : DB) (p : Nat) : DB :=
  match firstFinal db with
  | some fs =>
    updateDemandaRows db p
      (fun r => { r with situacao := some fs.pk,
                         data_fechamento := some (latestOf today (childrenOf db p)) })
  | none =>
    updateDemandaRows db p
      (fun r => { r with data_fechamento := some (latestOf today (childrenOf db p)) })

/-- `Demanda.objects.filter(pk=parent.pk).first().parent` (models.py:173):
the walk re-fetches the just-updated parent row and climbs to its parent. -/
def nextParent (db : DB) (p : Nat) : Option Nat :=
  (findDemanda db p).bind (fun d => d.parent)

/-- The `while parent:` loop of `demanda_post_save` (models.py:156-175).
The Python loop is unbounded and relies on the parent chain being acyclic;
the `fuel` argument is the explicit bound of the model (on acyclic data the
caller supplies enough fuel for the walk to finish on its own). -/
def propagate (today : Nat) : Nat → DB → Option Nat → DB
  | _, db, none => db
  | 0, db, some _ => db
  | fuel + 1, db, some p =>
    let subs := childrenOf db p
    if subs.isEmpty then db
    else if subs.all (isFinalD db) then
      let db2 := cascadeUpdate today db p
      propagate today fuel db2 (nextParent db2 p)
    else db

/-- Step 1 of `demanda_post_save` (models.py:151-153): if the just-saved
demanda is final and has no closure date, stamp its row with today. -/
def demanda_step1 (today : Nat) (db : DB) (inst : Demanda) : DB :=
  if isFinalD db inst && inst.data_fechamento.isNone then
    updateDemandaRows db inst.pk (fun r => { r with data_fechamento := some today })
  else db

/-- `demanda_post_save` (models.py:142-175): stamp the closure date of a final
demanda, then walk the parent chain. -/
def demanda_post_save (today : Nat) (db : DB) (inst : Demanda) : DB :=
  propagate today (demanda_step1 today db inst).demandas.length
    (demanda_step1 today db inst) inst.parent

/-- The default-situacao rule of `Demanda.save` (models.py:118-125): when no
situacao is set, use the one flagged `padrao` (when it exists). -/
def demandaFillSituacao (db : DB) (d : Demanda) : Demanda :=
  if d.situacao.isNone then
    match firstPadrao db with
    | some s => { d with situacao := some s.pk }
    | none => d
  else d

/-- The body of `Demanda.save` before `super().save()` (models.py:117-128):
the default-situacao rule, then `data_prazo = data_inicio + 7 days` when a
start date is present and the due date is absent. -/
def demandaFill (db : DB) (d : Demanda) : Demanda :=
  if (demandaFillSituacao db d).data_inicio.isSome
      && (demandaFillSituacao db d).data_prazo.isNone then
    { demandaFillSituacao db d with
        data_prazo := (demandaFillSituacao db d).data_inicio.map (fun x => x + 7) }
  else demandaFillSituacao db d

/-- A full `Demanda.save()` call: the fill rules, the row write, then the
`demanda_post_save` signal on the saved instance. -/
def demandaSave (today : Nat) (db : DB) (d : Demanda) : DB :=
  demanda_post_save today (upsertDemanda db (demandaFill db d)) (demandaFill db d)

/-- `exclude(pk=instance.pk).filter(padrao=True).update(padrao=False)`
(models.py:186-188), as the per-row assignment. -/
def clearOtherPadrao (s t : Situacao) : Situacao :=
  if t.pk != s.pk && t.padrao then { t with padrao := false } else t

/-- `exclude(pk=instance.pk).filter(pendente=True).update(pendente=False)`
(models.py:192-194), as the per-row assignment. -/
def clearOtherPendente (s t : Situacao) : Situacao :=
  if t.pk != s.pk && t.pendente then { t with pendente := false } else t

/-- First statement of `situacao_post_save` (models.py:185-188). -/
def situacaoClearPadrao (db : DB) (s : Situacao) : DB :=
  if s.padrao then { db with situacoes := db.situacoes.map (clearOtherPadrao s) }
  else db

/-- Second statement of `situacao_post_save` (models.py:191-194). -/
def situacaoClearPendente (db : DB) (s : Situacao) : DB :=
  if s.pendente then { db with situacoes := db.situacoes.map (clearOtherPendente s) }
  else db

/-- `situacao_post_save` (models.py:178-194): if the saved situacao is marked
`padrao`, clear `padrao` on every other row; analogously for `pendente`. -/
def situacao_post_save (db : DB) (s : Situacao) : DB :=
  situacaoClearPendente (situacaoClearPadrao db s) s

/-- A full `Situacao.save()` call: the row write then the `post_save` signal. -/
def situacaoSave (db : DB) (s : Situacao) : DB :=
  situacao_post_save (upsertSituacao db s) s

/-- `pendencia_pre_save` (models.py:197-207): the previously persisted value of
`resolvida`, read before the write; `false` for a record with no prior state. -/
def pendencia_pre_save (db : DB) (p : Pendencia) : Bool :=
  match findPendencia db p.pk with
  | some old => old.resolvida
  | none => false

/-- models.py:222-223: on resolution, stamp `resolvido_em` when it is unset. -/
def pendenciaResolveStamp (now : Nat) (db : DB) (p : Pendencia) : DB :=
  if p.resolvido_em.isNone then
    updatePendRows db p.pk (fun q => { q with resolvido_em := some now })
  else db

/-- models.py:224-228: move the owning demanda to the first "exec"-named
situacao (when one exists) and clear its closure date. -/
def pendenciaResolveTask (db : DB) (p : Pendencia) : DB :=
  match firstExec db with
  | some e =>
    updateDemandaRows db p.demanda
      (fun r => { r with situacao := some e.pk, data_fechamento := none })
  | none => db

/-- models.py:232-233: on reopening, clear `resolvido_em` when it is set. -/
def pendenciaReopenStamp (db : DB) (p : Pendencia) : DB :=
  if p.resolvido_em.isSome then
    updatePendRows db p.pk (fun q => { q with resolvido_em := none })
  else db

/-- models.py:234-238: move the owning demanda to the first "pend"-named
situacao (when one exists) and clear its closure date. -/
def pendenciaReopenTask (db : DB) (p : Pendencia) : DB :=
  match firstPendSit db with
  | some s =>
    updateDemandaRows db p.demanda
      (fun r => { r with situacao := some s.pk, data_fechamento := none })
  | none => db

/-- The `False -> True` block of `pendencia_post_save` (models.py:220-228). -/
def pendenciaResolveBranch (now : Nat) (db : DB) (p : Pendencia) (was : Bool) : DB :=
  if !was && p.resolvida then pendenciaResolveTask (pendenciaResolveStamp now db p) p
  else db

/-- The `True -> False` block of `pendencia_post_save` (models.py:230-238). -/
def pendenciaReopenBranch (db : DB) (p : Pendencia) (was : Bool) : DB :=
  if was && !p.resolvida then pendenciaReopenTask (pendenciaReopenStamp db p) p
  else db

/-- `pendencia_post_save` (models.py:210-238): the two transition blocks in
source order. -/
def pendencia_post_save (now : Nat) (db : DB) (p : Pendencia) (was : Bool) : DB :=
  pendenciaReopenBranch (pendenciaResolveBranch now db p was) p was

/-- A full `Pendencia.save()` call: `pre_save` reads the committed value of
`resolvida`, the row is written, then `post_save` runs on the saved instance. -/
def pendenciaSave (now : Nat) (db : DB) (p : Pendencia) : DB :=
  pendencia_post_save now (upsertPendencia db p) p (pendencia_pre_save db p)

/-- The state change of `alterar_status_view` (views.py:99-121), POST branch:
fetch the demanda and the target situacao (404 leaves the store untouched),
assign the target and save, and when a non-empty pendencia description was
posted, create a `Pendencia` (fresh pk `newPk`, `resolvida=False`). -/
def alterar_status (today now : Nat) (db : DB) (pk sid : Nat) (desc : String)
    (newPk : Nat) : DB :=
  match findDemanda db pk, findSit db sid with
  | some d, some _target =>
    if desc == "" then demandaSave today db { d with situacao := some sid }
    else
      pendenciaSave now (demandaSave today db { d with situacao := some sid })
        ⟨newPk, pk, desc, false, none⟩
  | _, _ => db

/-- Number of situacoes flagged as default. -/
def countPadrao (db : DB) : Nat :=
  (db.situacoes.filter (fun s => s.padrao)).length

/-- Number of situacoes flagged as pending. -/
def countPendente (db : DB) : Nat :=
  (db.situacoes.filter (fun s => s.pendente)).length

/-- The situacao table has no duplicate primary keys (Django's pk column). -/
def nodupPks (db : DB) : Prop :=
  (db.situacoes.map (fun s => s.pk)).Nodup

/-- The fields of a demanda row that the post-save hooks never write: the
cascade only assigns `situacao` and `data_fechamento`, so everything else is a
frame. -/
def coreD (r : Demanda) : Nat × Option Nat × Option Nat × Option Nat :=
  (r.pk, r.parent, r.data_inicio, r.data_prazo)

/-! ### Concrete stores used to instantiate the theorems -/

/-- A store with a "final"-named situacao, a parent (pk 1) and two terminal
children (pks 2 and 3), one of them without a closure date. -/
def exCascade : DB :=
  ⟨[⟨1, "Finalizado", false, false⟩],
   [⟨1, none, none, none, none, none⟩,
    ⟨2, some 1, some 1, none, none, some 5⟩,
    ⟨3, some 1, some 1, none, none, none⟩], []⟩

/-- A store whose registry has no "final"-named situacao at all. -/
def exNoFinal : DB :=
  ⟨[⟨1, "Backlog", false, false⟩],
   [⟨1, none, some 1, none, none, none⟩,
    ⟨2, some 1, some 1, none, none, none⟩], []⟩

/-- A store with a "final" and a non-final situacao and one demanda. -/
def exTwoStates : DB :=
  ⟨[⟨1, "Finalizado", false, false⟩, ⟨2, "Backlog", false, false⟩],
   [⟨10, none, some 1, none, none, none⟩], []⟩

/-- `exTwoStates` after saving demanda 10 in the final situacao: the
post-save hook stamps its closure date with 100. -/
def exClosed : DB := demandaSave 100 exTwoStates ⟨10, none, some 1, none, none, none⟩

/-- `exClosed` after moving demanda 10 to the non-final situacao 2 through the
status-change view: the closure date is not cleared. -/
def exStale : DB := alterar_status 200 200 exClosed 10 2 "" 0

/-- A store with one parentless demanda, used for the self-ancestry claim. -/
def exSolo : DB := ⟨[], [⟨5, none, none, none, none, none⟩], []⟩

/-- A store where demanda 7 has a start date and a previously saved due date. -/
def exDates : DB := ⟨[⟨1, "Backlog", false, false⟩], [⟨7, none, some 1, some 50, some 40, none⟩], []⟩

/-- A registry in a corrupted state: two situacoes flagged default and pending. -/
def exFlags : DB := ⟨[⟨1, "A", true, true⟩, ⟨2, "B", true, true⟩], [], []⟩

/-- A store with an "exec"-named situacao, a closed demanda and an open
pendencia attached to it. -/
def exPend : DB :=
  ⟨[⟨4, "Em execucao", false, false⟩],
   [⟨10, none, none, none, none, some 9⟩],
   [⟨1, 10, "abc", false, none⟩]⟩

/-- A store with a "pend"-named situacao, a closed demanda and a resolved
pendencia attached to it. -/
def exPendBack : DB :=
  ⟨[⟨5, "Pendente", false, false⟩],
   [⟨10, none, none, none, none, some 9⟩],
   [⟨1, 10, "abc", true, some 77⟩]⟩

/-- A store with no "exec"-named situacao and an open pendencia. -/
def exPendNoExec : DB :=
  ⟨[⟨6, "Backlog", false, false⟩],
   [⟨10, none, some 6, none, none, none⟩],
   [⟨1, 10, "abc", false, none⟩]⟩

/-- A store with no "pend"-named situacao and a resolved pendencia. -/
def exPendNoPend : DB :=
  ⟨[⟨6, "Backlog", false, false⟩],
   [⟨10, none, some 6, none, none, none⟩],
   [⟨1, 10, "abc", true, some 77⟩]⟩

/-! ### Basic lemmas about the string matching and the store accessors -/

/-- A name that starts with a key also contains it. -/
theorem lcHas_of_lcStarts (n l : List Char) (h : lcStarts n l = true) :
    lcHas n l = true := by
  cases l with
  | nil => simpa [lcHas] using h
  | cons x xs => simp [lcHas, h]

/-- A final demanda points (through its FK) at a situacao of the registry whose
name contains "final". -/
theorem exists_final_of_isFinalD (db : DB) (d : Demanda)
    (h : isFinalD db d = true) :
    ∃ s ∈ db.situacoes, nameHas s.nome finalKey = true := by
  cases hsid : d.situacao with
  | none => simp [isFinalD, hsid] at h
  | some sid =>
    cases hfind : findSit db sid with
    | none => simp [isFinalD, hsid, hfind] at h
    | some s =>
      have hs : ((!(s.nome == "")) && nameStarts s.nome finalKey) = true := by
        simpa [isFinalD, hsid, hfind] using h
      have hmem : s ∈ db.situacoes := List.mem_of_find?_eq_some hfind
      have hst : nameStarts s.nome finalKey = true := (Bool.and_eq_true_iff.mp hs).2
      exact ⟨s, hmem, lcHas_of_lcStarts _ _ hst⟩

/-- If the registry holds no "final"-named situacao, no demanda is final. -/
theorem isFinalD_eq_false_of_no_final (db : DB) (h : firstFinal db = none)
    (d : Demanda) : isFinalD db d = false := by
  cases hb : isFinalD db d with
  | false => rfl
  | true =>
    obtain ⟨s, hmem, hs⟩ := exists_final_of_isFinalD db d hb
    have := List.find?_eq_none.mp h s hmem
    simp [hs] at this

/-- The cascade walk from an absent parent is the identity. -/
theorem propagate_none (today fuel : Nat) (db : DB) :
    propagate today fuel db none = db := by
  cases fuel <;> rfl

/-- The cascade walk with no fuel is the identity. -/
theorem propagate_zero (today : Nat) (db : DB) (q : Option Nat) :
    propagate today 0 db q = db := by
  cases q <;> rfl

/-- One unfolding of the cascade walk at a present parent. -/
theorem propagate_succ (today fuel : Nat) (db : DB) (p : Nat) :
    propagate today (fuel + 1) db (some p) =
      (if (childrenOf db p).isEmpty then db
       else if (childrenOf db p).all (isFinalD db) then
         propagate today fuel (cascadeUpdate today db p)
           (nextParent (cascadeUpdate today db p) p)
       else db) := rfl

/-- With no final demanda anywhere, the cascade walk is the identity. -/
theorem propagate_noop (today fuel : Nat) (db : DB) (q : Option Nat)
    (h : ∀ d, isFinalD db d = false) : propagate today fuel db q = db := by
  cases q with
  | none => exact propagate_none today fuel db
  | some p =>
    cases fuel with
    | zero => exact propagate_zero today db (some p)
    | succ n =>
      rw [propagate_succ]
      cases hc : childrenOf db p with
      | nil => simp
      | cons a t => simp [hc, List.all_cons, h a]

/-- C1: for a cascade-walk step at a parent whose children are at least two and
all terminal, with a "final"-named situacao configured, the parent row is given
that situacao and the latest child closure date (unset closure dates defaulting
to today), and the walk continues from the re-fetched parent's own parent; at a
parent with no children, or with a non-terminal child, the walk stops with the
store unchanged. -/
theorem claim1_cascade (today fuel : Nat) (db : DB) (p : Nat) :
    (∀ fs : Situacao, 2 ≤ (childrenOf db p).length →
      (childrenOf db p).all (isFinalD db) = true →
      firstFinal db = some fs →
      propagate today (fuel + 1) db (some p) =
        propagate today fuel (cascadeUpdate today db p)
          (nextParent (cascadeUpdate today db p) p)
      ∧ ∀ r ∈ (cascadeUpdate today db p).demandas, r.pk = p →
          r.situacao = some fs.pk
          ∧ r.data_fechamento = some (latestOf today (childrenOf db p)))
    ∧ ((childrenOf db p = [] ∨ (childrenOf db p).all (isFinalD db) = false) →
        propagate today (fuel + 1) db (some p) = db) := by
  constructor
  · intro fs hlen hall hfs
    have hne : (childrenOf db p).isEmpty = false := by
      cases hc : childrenOf db p with
      | nil => rw [hc] at hlen; exact absurd hlen (by simp)
      | cons a t => rfl
    constructor
    · rw [propagate_succ, hne, hall]
      simp
    · intro r hr hrp
      simp only [cascadeUpdate, hfs, updateDemandaRows, List.mem_map] at hr
      obtain ⟨a, _, ha⟩ := hr
      by_cases hpk : (a.pk == p) = true
      · rw [if_pos hpk] at ha
        subst ha; exact ⟨rfl, rfl⟩
      · rw [if_neg hpk] at ha
        subst ha
        exact absurd (by simpa using hrp) hpk
  · intro h
    cases h with
    | inl h => rw [propagate_succ, h]; simp
    | inr h => rw [propagate_succ, h]; simp

/-- Witness for C1: the step case on `exCascade` (parent 1, children 2 and 3,
latest closure `max 5 10 = 10`), and the stop case at the childless demanda 2. -/
theorem claim1_witness :
    (propagate 10 (0 + 1) exCascade (some 1) =
        propagate 10 0 (cascadeUpdate 10 exCascade 1)
          (nextParent (cascadeUpdate 10 exCascade 1) 1)
      ∧ ∀ r ∈ (cascadeUpdate 10 exCascade 1).demandas, r.pk = 1 →
          r.situacao = some (1 : Nat)
          ∧ r.data_fechamento = some (latestOf 10 (childrenOf exCascade 1)))
    ∧ propagate 10 (0 + 1) exCascade (some 2) = exCascade :=
  ⟨(claim1_cascade 10 0 exCascade 1).1 ⟨1, "Finalizado", false, false⟩
      (by decide) (by decide) (by decide),
   (claim1_cascade 10 0 exCascade 2).2 (Or.inl (by decide))⟩

/-- C3: when the registry holds no "final"-named situacao, a demanda save
changes nothing: no ancestor's situacao or closure date is touched and the walk
stops at once — indeed no demanda can even be terminal in such a registry, so
the just-saved demanda's closure date is not set either (the claim's "terminal
task" case is vacuous). -/
theorem claim3_no_final (today : Nat) (db : DB) (inst : Demanda)
    (h : firstFinal db = none) :
    demanda_post_save today db inst = db ∧ isFinalD db inst = false := by
  have hall : ∀ d, isFinalD db d = false := isFinalD_eq_false_of_no_final db h
  have hstep : demanda_step1 today db inst = db := by
    unfold demanda_step1
    rw [hall inst]
    simp
  refine ⟨?_, hall inst⟩
  unfold demanda_post_save
  rw [hstep]
  exact propagate_noop today db.demandas.length db inst.parent hall

/-- Witness for C3 on `exNoFinal`: saving terminal-looking demanda 2 changes
nothing because no "final"-named situacao exists. -/
theorem claim3_witness :
    demanda_post_save 10 exNoFinal ⟨2, some 1, some 1, none, none, none⟩ = exNoFinal
    ∧ isFinalD exNoFinal ⟨2, some 1, some 1, none, none, none⟩ = false :=
  claim3_no_final 10 exNoFinal ⟨2, some 1, some 1, none, none, none⟩ (by decide)

/-! ### Generic lemmas about `find?` under row writes -/

/-- After replacing every row matched by `p` with `d` (the update branch of an
upsert), `find? p` returns `d`, provided some row matched. -/
theorem find?_map_replace {α : Type} (p : α → Bool) (d : α) (hd : p d = true) :
    ∀ l : List α, l.any p = true →
      (l.map (fun r => if p r then d else r)).find? p = some d := by
  intro l
  induction l with
  | nil => intro h; simp at h
  | cons a t ih =>
    intro h
    simp only [List.map_cons]
    by_cases ha : p a = true
    · rw [if_pos ha]
      exact List.find?_cons_of_pos _ hd
    · rw [if_neg ha, List.find?_cons_of_neg _ ha]
      have h' : t.any p = true := by simpa [List.any_cons, ha] using h
      exact ih h'

/-- After appending `d` to a list with no row matched by `p` (the insert branch
of an upsert), `find? p` returns `d`. -/
theorem find?_append_one {α : Type} (p : α → Bool) (d : α) (hd : p d = true) :
    ∀ l : List α, l.any p = false → (l ++ [d]).find? p = some d := by
  intro l
  induction l with
  | nil => intro _h; exact List.find?_cons_of_pos _ hd
  | cons a t ih =>
    intro h
    have ha : ¬ p a = true := by
      intro hpa
      simp [List.any_cons, hpa] at h
    rw [List.cons_append, List.find?_cons_of_neg _ ha]
    have h' : t.any p = false := by
      cases hb : t.any p with
      | false => rfl
      | true => simp [List.any_cons, hb] at h
    exact ih h'

/-- `find? p` commutes with a `p`-guarded row update, when the update does not
change whether a row matches `p`. -/
theorem find?_map_guard {α : Type} (p : α → Bool) (f : α → α)
    (hf : ∀ r, p (f r) = p r) :
    ∀ l : List α, (l.map (fun r => if p r then f r else r)).find? p
      = (l.find? p).map f := by
  intro l
  induction l with
  | nil => rfl
  | cons a t ih =>
    simp only [List.map_cons]
    by_cases ha : p a = true
    · have ha' : p (f a) = true := (hf a).trans ha
      rw [if_pos ha, List.find?_cons_of_pos _ ha', List.find?_cons_of_pos _ ha]
      rfl
    · rw [if_neg ha, List.find?_cons_of_neg _ ha, List.find?_cons_of_neg _ ha]
      exact ih

/-- Two demanda lists that agree on the cascade frame (`coreD`) give the same
answer, up to `coreD`, when searched by pk. -/
theorem find?_coreD_congr (k : Nat) :
    ∀ l l' : List Demanda, l.map coreD = l'.map coreD →
      (l.find? (fun r => r.pk == k)).map coreD
        = (l'.find? (fun r => r.pk == k)).map coreD := by
  intro l
  induction l with
  | nil =>
    intro l' h
    cases l' with
    | nil => rfl
    | cons b t' => simp at h
  | cons a t ih =>
    intro l' h
    cases l' with
    | nil => simp at h
    | cons b t' =>
      simp only [List.map_cons, List.cons.injEq] at h
      obtain ⟨hab, ht⟩ := h
      have hpk : a.pk = b.pk := congrArg (fun x => x.1) hab
      by_cases hk : (a.pk == k) = true
      · have hk' : (b.pk == k) = true := by rw [← hpk]; exact hk
        simp only [List.find?, hk, hk']
        simp [hab]
      · have hkf : (a.pk == k) = false := by
          cases hb : (a.pk == k) with
          | false => rfl
          | true => exact absurd hb hk
        have hkf' : (b.pk == k) = false := by rw [← hpk]; exact hkf
        simp only [List.find?, hkf, hkf']
        exact ih t' ht

/-- A pk-guarded update that only writes `situacao` / `data_fechamento`
preserves the cascade frame of every row. -/
theorem map_coreD_guard (k : Nat) (f : Demanda → Demanda)
    (hf : ∀ r, coreD (f r) = coreD r) :
    ∀ l : List Demanda,
      (l.map (fun r => if r.pk == k then f r else r)).map coreD = l.map coreD := by
  intro l
  induction l with
  | nil => rfl
  | cons a t ih =>
    simp only [List.map_cons]
    rw [ih]
    by_cases h : (a.pk == k) = true
    · rw [if_pos h, hf a]
    · rw [if_neg h]

/-- `map_coreD_guard` phrased on the store operation. -/
theorem map_coreD_updateRows (db : DB) (k : Nat) (f : Demanda → Demanda)
    (hf : ∀ r, coreD (f r) = coreD r) :
    ((updateDemandaRows db k f).demandas).map coreD = db.demandas.map coreD := by
  unfold updateDemandaRows
  exact map_coreD_guard k f hf db.demandas

/-! ### Frame lemmas for the demanda save pipeline -/

/-- The cascade walk never touches the situacao or pendencia tables, and never
writes any demanda field other than `situacao` and `data_fechamento`. -/
theorem propagate_frame (today fuel : Nat) :
    ∀ (db : DB) (q : Option Nat),
      ((propagate today fuel db q).demandas).map coreD = db.demandas.map coreD
      ∧ (propagate today fuel db q).situacoes = db.situacoes
      ∧ (propagate today fuel db q).pendencias = db.pendencias := by
  induction fuel with
  | zero =>
    intro db q
    rw [propagate_zero]
    exact ⟨rfl, rfl, rfl⟩
  | succ n ih =>
    intro db q
    cases q with
    | none => rw [propagate_none]; exact ⟨rfl, rfl, rfl⟩
    | some p =>
      rw [propagate_succ]
      by_cases h1 : (childrenOf db p).isEmpty = true
      · rw [if_pos h1]; exact ⟨rfl, rfl, rfl⟩
      · rw [if_neg h1]
        by_cases h2 : (childrenOf db p).all (isFinalD db) = true
        · rw [if_pos h2]
          obtain ⟨ha, hb, hc⟩ :=
            ih (cascadeUpdate today db p) (nextParent (cascadeUpdate today db p) p)
          have hcore : ((cascadeUpdate today db p).demandas).map coreD
              = db.demandas.map coreD := by
            unfold cascadeUpdate
            split
            · exact map_coreD_updateRows db p _ (fun r => rfl)
            · exact map_coreD_updateRows db p _ (fun r => rfl)
          have hsit : (cascadeUpdate today db p).situacoes = db.situacoes := by
            unfold cascadeUpdate
            split <;> rfl
          have hpen : (cascadeUpdate today db p).pendencias = db.pendencias := by
            unfold cascadeUpdate
            split <;> rfl
          exact ⟨ha.trans hcore, hb.trans hsit, hc.trans hpen⟩
        · rw [if_neg h2]; exact ⟨rfl, rfl, rfl⟩

/-- `demanda_post_save` preserves the cascade frame of every demanda row and
leaves the other two tables untouched. -/
theorem demanda_post_save_frame (today : Nat) (db : DB) (inst : Demanda) :
    ((demanda_post_save today db inst).demandas).map coreD = db.demandas.map coreD
    ∧ (demanda_post_save today db inst).situacoes = db.situacoes
    ∧ (demanda_post_save today db inst).pendencias = db.pendencias := by
  have hstep : ((demanda_step1 today db inst).demandas).map coreD
        = db.demandas.map coreD
      ∧ (demanda_step1 today db inst).situacoes = db.situacoes
      ∧ (demanda_step1 today db inst).pendencias = db.pendencias := by
    unfold demanda_step1
    split
    · exact ⟨map_coreD_updateRows db inst.pk _ (fun r => rfl), rfl, rfl⟩
    · exact ⟨rfl, rfl, rfl⟩
  obtain ⟨g1, g2, g3⟩ :=
    propagate_frame today (demanda_step1 today db inst).demandas.length
      (demanda_step1 today db inst) inst.parent
  exact ⟨g1.trans hstep.1, g2.trans hstep.2.1, g3.trans hstep.2.2⟩

/-- The fill rules of `Demanda.save` never change the pk, the parent, the start
date, or the closure date. -/
theorem demandaFill_frame (db : DB) (d : Demanda) :
    (demandaFill db d).pk = d.pk ∧ (demandaFill db d).parent = d.parent
    ∧ (demandaFill db d).data_inicio = d.data_inicio
    ∧ (demandaFill db d).data_fechamento = d.data_fechamento := by
  have hS : (demandaFillSituacao db d).pk = d.pk
      ∧ (demandaFillSituacao db d).parent = d.parent
      ∧ (demandaFillSituacao db d).data_inicio = d.data_inicio
      ∧ (demandaFillSituacao db d).data_prazo = d.data_prazo
      ∧ (demandaFillSituacao db d).data_fechamento = d.data_fechamento := by
    unfold demandaFillSituacao
    split
    · split <;> exact ⟨rfl, rfl, rfl, rfl, rfl⟩
    · exact ⟨rfl, rfl, rfl, rfl, rfl⟩
  unfold demandaFill
  split
  · exact ⟨hS.1, hS.2.1, hS.2.2.1, hS.2.2.2.2⟩
  · exact ⟨hS.1, hS.2.1, hS.2.2.1, hS.2.2.2.2⟩

/-- The saved row can be read back right after the write. -/
theorem findDemanda_upsert (db : DB) (d : Demanda) :
    findDemanda (upsertDemanda db d) d.pk = some d := by
  unfold findDemanda upsertDemanda
  by_cases h : db.demandas.any (fun r => r.pk == d.pk) = true
  · rw [if_pos h]
    exact find?_map_replace _ d (by simp) db.demandas h
  · rw [if_neg h]
    have h' : db.demandas.any (fun r => r.pk == d.pk) = false := by
      cases hb : db.demandas.any (fun r => r.pk == d.pk) with
      | false => rfl
      | true => exact absurd hb h
    exact find?_append_one _ d (by simp) db.demandas h'

/-- C4 correction: there is no self-ancestry validation anywhere in the save
path.  `Demanda.save` is a total operation that always persists the requested
parent reference — even when that makes the task its own ancestor — and the
post-save cascade never rewrites it: after any save, the stored row's parent
is exactly the one that was requested, and no error is signalled. -/
theorem claim4_amended (today : Nat) (db : DB) (d : Demanda) :
    (findDemanda (demandaSave today db d) d.pk).map (fun r => r.parent)
      = some d.parent := by
  have hpk : (demandaFill db d).pk = d.pk := (demandaFill_frame db d).1
  have hpar : (demandaFill db d).parent = d.parent := (demandaFill_frame db d).2.1
  have hfind : findDemanda (upsertDemanda db (demandaFill db d)) d.pk
      = some (demandaFill db d) := by
    rw [← hpk]
    exact findDemanda_upsert db (demandaFill db d)
  have hframe := (demanda_post_save_frame today
    (upsertDemanda db (demandaFill db d)) (demandaFill db d)).1
  have htrans := find?_coreD_congr d.pk _ _ hframe
  unfold demandaSave
  unfold findDemanda at hfind ⊢
  rw [hfind] at htrans
  cases ho : ((demanda_post_save today (upsertDemanda db (demandaFill db d))
      (demandaFill db d)).demandas).find? (fun r => r.pk == d.pk) with
  | none => rw [ho] at htrans; simp at htrans
  | some r =>
    rw [ho] at htrans
    simp only [Option.map_some'] at htrans ⊢
    have hcore : coreD r = coreD (demandaFill db d) := Option.some.inj htrans
    have hr : r.parent = (demandaFill db d).parent :=
      congrArg (fun t => t.2.1) hcore
    rw [hr, hpar]

/-- Counterexample to C4 as stated: saving demanda 5 with itself as parent
succeeds — the model of the source raises nothing and returns the new store —
and the tree is changed: the self-referencing parent is persisted.  The claim
said the operation fails with a `ValidationError` and leaves the tree
unchanged; no such check exists in the source. -/
theorem claim4_counterexample :
    demandaSave 0 exSolo ⟨5, some 5, none, none, none, none⟩
      = ⟨[], [⟨5, some 5, none, none, none, none⟩], []⟩ := by decide

/-- C5 correction: the `data_inicio + 7` derivation is applied on every save
in which the due date is currently absent, not only on first save: re-saving a
demanda whose due date was cleared while its start date is present regenerates
`data_prazo = data_inicio + 7` in the stored row. -/
theorem claim5_amended (today : Nat) (db : DB) (d : Demanda) (x : Nat)
    (h1 : d.data_inicio = some x) (h2 : d.data_prazo = none) :
    (findDemanda (demandaSave today db d) d.pk).map (fun r => r.data_prazo)
      = some (some (x + 7)) := by
  have hS : (demandaFillSituacao db d).data_inicio = some x
      ∧ (demandaFillSituacao db d).data_prazo = none
      ∧ (demandaFillSituacao db d).pk = d.pk := by
    unfold demandaFillSituacao
    split
    · split <;> exact ⟨h1, h2, rfl⟩
    · exact ⟨h1, h2, rfl⟩
  have hprazo : (demandaFill db d).data_prazo = some (x + 7) := by
    unfold demandaFill
    rw [if_pos (by rw [hS.1, hS.2.1]; rfl)]
    simp [hS.1]
  have hpk : (demandaFill db d).pk = d.pk := (demandaFill_frame db d).1
  have hfind : findDemanda (upsertDemanda db (demandaFill db d)) d.pk
      = some (demandaFill db d) := by
    rw [← hpk]
    exact findDemanda_upsert db (demandaFill db d)
  have hframe := (demanda_post_save_frame today
    (upsertDemanda db (demandaFill db d)) (demandaFill db d)).1
  have htrans := find?_coreD_congr d.pk _ _ hframe
  unfold demandaSave
  unfold findDemanda at hfind ⊢
  rw [hfind] at htrans
  cases ho : ((demanda_post_save today (upsertDemanda db (demandaFill db d))
      (demandaFill db d)).demandas).find? (fun r => r.pk == d.pk) with
  | none => rw [ho] at htrans; simp at htrans
  | some r =>
    rw [ho] at htrans
    simp only [Option.map_some'] at htrans ⊢
    have hcore : coreD r = coreD (demandaFill db d) := Option.some.inj htrans
    have hr : r.data_prazo = (demandaFill db d).data_prazo :=
      congrArg (fun t => t.2.2.2) hcore
    rw [hr, hprazo]

/-- Witness for C5's corrected statement: an empty store, a fresh demanda with
start date 10 and no due date; the stored row gets due date 17. -/
theorem claim5_witness :
    (findDemanda (demandaSave 0 ⟨[], [], []⟩ ⟨1, none, none, some 10, none, none⟩) 1).map
        (fun r => r.data_prazo) = some (some 17) :=
  claim5_amended 0 ⟨[], [], []⟩ ⟨1, none, none, some 10, none, none⟩ 10 rfl rfl

/-- Counterexample to C5 as stated: demanda 7 previously had due date 40;
the user clears the due date and re-saves with start date 50 still present.
The claim says the due date is NOT regenerated; the code regenerates it to
`50 + 7 = 57`. -/
theorem claim5_counterexample :
    (findDemanda (demandaSave 0 exDates ⟨7, none, some 1, some 50, none, none⟩) 7).map
        (fun r => r.data_prazo) = some (some 57) := by decide

/-! ### The status-change view and the closure-date invariant -/

/-- A demanda write does not touch the situacao table. -/
theorem upsertDemanda_situacoes (db : DB) (d : Demanda) :
    (upsertDemanda db d).situacoes = db.situacoes := by
  unfold upsertDemanda
  split <;> rfl

/-- The row just written is in the store. -/
theorem mem_upsertDemanda (db : DB) (d : Demanda) :
    d ∈ (upsertDemanda db d).demandas := by
  unfold upsertDemanda
  by_cases h : db.demandas.any (fun r => r.pk == d.pk) = true
  · rw [if_pos h]
    obtain ⟨a, ha, hpk⟩ := List.any_eq_true.mp h
    exact List.mem_map.mpr ⟨a, ha, by rw [if_pos hpk]⟩
  · rw [if_neg h]
    simp

/-- A demanda whose situacao resolves to a target without a "final"-prefixed
name is not final. -/
theorem isFinalD_false_of_target (db : DB) (d : Demanda) (sid : Nat)
    (t : Situacao) (hs : d.situacao = some sid) (hf : findSit db sid = some t)
    (hnf : nameStarts t.nome finalKey = false) : isFinalD db d = false := by
  simp only [isFinalD, hs, hf, hnf, Bool.and_false]

/-- `demanda_post_save` on a stored non-final instance is the identity: the
closure-date stamp does not fire, and the walk stops at the first parent
because the instance itself is one of its non-final children. -/
theorem demanda_post_save_of_nonfinal (today : Nat) (db : DB) (inst : Demanda)
    (h : isFinalD db inst = false) (hmem : inst ∈ db.demandas) :
    demanda_post_save today db inst = db := by
  have hstep : demanda_step1 today db inst = db := by
    unfold demanda_step1
    rw [h]
    simp
  unfold demanda_post_save
  rw [hstep]
  cases hp : inst.parent with
  | none => exact propagate_none today db.demandas.length db
  | some p =>
    cases hn : db.demandas.length with
    | zero => exact propagate_zero today db (some p)
    | succ m =>
      rw [propagate_succ]
      have hmemc : inst ∈ childrenOf db p := by
        unfold childrenOf
        rw [List.mem_filter]
        exact ⟨hmem, by rw [hp]; simp⟩
      have hne : (childrenOf db p).isEmpty = false := by
        cases hc : childrenOf db p with
        | nil => rw [hc] at hmemc; exact absurd hmemc (by simp)
        | cons a t => rfl
      have hnall : ¬ (childrenOf db p).all (isFinalD db) = true := by
        intro hall
        exact absurd (List.all_eq_true.mp hall inst hmemc) (by simp [h])
      rw [if_neg (by simp [hne]), if_neg hnall]

/-- C2 correction: saving a terminal demanda stamps its closure date and the
pendencia transitions clear it, but moving a demanda to a non-final situacao
through the status-change view does NOT clear its closure date: the whole
operation is just the row write (an upsert of the filled row), whose closure
date is carried over unchanged while the situacao becomes the non-final
target.  Hence "closure date set iff terminal" does not hold for all
reachable states. -/
theorem claim2_amended (today now : Nat) (db : DB) (pk sid newPk : Nat)
    (d : Demanda) (t : Situacao)
    (hd : findDemanda db pk = some d) (ht : findSit db sid = some t)
    (hnf : nameStarts t.nome finalKey = false) :
    alterar_status today now db pk sid "" newPk
      = upsertDemanda db (demandaFill db { d with situacao := some sid })
    ∧ (demandaFill db { d with situacao := some sid }).data_fechamento
        = d.data_fechamento
    ∧ (demandaFill db { d with situacao := some sid }).situacao = some sid := by
  have hfillS : demandaFillSituacao db { d with situacao := some sid }
      = { d with situacao := some sid } := by
    unfold demandaFillSituacao
    rw [if_neg (by simp)]
  have hsitFill : (demandaFill db { d with situacao := some sid }).situacao
      = some sid := by
    unfold demandaFill
    rw [hfillS]
    split <;> rfl
  have hfech : (demandaFill db { d with situacao := some sid }).data_fechamento
      = d.data_fechamento := (demandaFill_frame db _).2.2.2
  refine ⟨?_, hfech, hsitFill⟩
  have hred : alterar_status today now db pk sid "" newPk
      = demandaSave today db { d with situacao := some sid } := by
    unfold alterar_status
    rw [hd, ht]
    rfl
  rw [hred]
  have hup_sit : (upsertDemanda db
      (demandaFill db { d with situacao := some sid })).situacoes = db.situacoes :=
    upsertDemanda_situacoes db _
  have hfind : findSit (upsertDemanda db
      (demandaFill db { d with situacao := some sid })) sid = some t := by
    unfold findSit at ht ⊢
    rw [hup_sit]
    exact ht
  have hnonfinal : isFinalD
      (upsertDemanda db (demandaFill db { d with situacao := some sid }))
      (demandaFill db { d with situacao := some sid }) = false :=
    isFinalD_false_of_target _ _ sid t hsitFill hfind hnf
  have hmem : demandaFill db { d with situacao := some sid }
      ∈ (upsertDemanda db (demandaFill db { d with situacao := some sid })).demandas :=
    mem_upsertDemanda db _
  unfold demandaSave
  exact demanda_post_save_of_nonfinal today _ _ hnonfinal hmem

/-- Witness for C2's corrected statement, on `exClosed` (demanda 10 terminal
with closure date 100): moving it to the non-final situacao 2 only rewrites
its row, keeping the closure date. -/
theorem claim2_witness :
    alterar_status 200 200 exClosed 10 2 "" 0
      = upsertDemanda exClosed (demandaFill exClosed ⟨10, none, some 2, none, none, some 100⟩)
    ∧ (demandaFill exClosed ⟨10, none, some 2, none, none, some 100⟩).data_fechamento
        = some 100
    ∧ (demandaFill exClosed ⟨10, none, some 2, none, none, some 100⟩).situacao = some 2 :=
  claim2_amended 200 200 exClosed 10 2 0 ⟨10, none, some 1, none, none, some 100⟩
    ⟨2, "Backlog", false, false⟩ (by decide) (by decide) (by decide)

/-- Counterexample to C2 as stated: in `exStale` — reached from `exTwoStates`
by saving demanda 10 as "Finalizado" (which stamps closure date 100) and then
moving it to "Backlog" through the status-change view — demanda 10 is in a
non-final situacao yet its closure date is still set, so the "closure date set
iff terminal" invariant fails on a reachable state. -/
theorem claim2_counterexample :
    findDemanda exStale 10 = some ⟨10, none, some 2, none, none, some 100⟩
    ∧ isFinalD exStale ⟨10, none, some 2, none, none, some 100⟩ = false := by decide

/-! ### The single-default / single-pending registry invariant -/

theorem clearOtherPadrao_pk (s t : Situacao) : (clearOtherPadrao s t).pk = t.pk := by
  unfold clearOtherPadrao
  split <;> rfl

theorem clearOtherPadrao_pendente (s t : Situacao) :
    (clearOtherPadrao s t).pendente = t.pendente := by
  unfold clearOtherPadrao
  split <;> rfl

theorem clearOtherPendente_pk (s t : Situacao) :
    (clearOtherPendente s t).pk = t.pk := by
  unfold clearOtherPendente
  split <;> rfl

theorem clearOtherPendente_padrao (s t : Situacao) :
    (clearOtherPendente s t).padrao = t.padrao := by
  unfold clearOtherPendente
  split <;> rfl

/-- A pk-preserving row rewrite keeps the pk column of the table. -/
theorem map_pk_of_preserve (f : Situacao → Situacao) (hf : ∀ t, (f t).pk = t.pk) :
    ∀ l : List Situacao,
      (l.map f).map (fun x => x.pk) = l.map (fun x => x.pk) := by
  intro l
  induction l with
  | nil => rfl
  | cons a t ih =>
    simp only [List.map_cons]
    rw [ih, hf a]

/-- The update branch of a situacao upsert keeps the pk column. -/
theorem map_pk_replace (s : Situacao) :
    ∀ l : List Situacao,
      (l.map (fun r => if r.pk == s.pk then s else r)).map (fun x => x.pk)
        = l.map (fun x => x.pk) := by
  intro l
  induction l with
  | nil => rfl
  | cons a t ih =>
    simp only [List.map_cons]
    rw [ih]
    by_cases h : (a.pk == s.pk) = true
    · rw [if_pos h]
      have ha : a.pk = s.pk := by simpa using h
      rw [ha]
    · rw [if_neg h]

/-- Writing a situacao row keeps the pk column duplicate-free. -/
theorem nodup_upsertSituacao (db : DB) (s : Situacao) (h : nodupPks db) :
    nodupPks (upsertSituacao db s) := by
  unfold nodupPks at h ⊢
  unfold upsertSituacao
  by_cases hc : db.situacoes.any (fun r => r.pk == s.pk) = true
  · rw [if_pos hc]
    show ((db.situacoes.map (fun r => if r.pk == s.pk then s else r)).map
      (fun x => x.pk)).Nodup
    rw [map_pk_replace s db.situacoes]
    exact h
  · rw [if_neg hc]
    show ((db.situacoes ++ [s]).map (fun x => x.pk)).Nodup
    rw [List.map_append]
    have hnot : s.pk ∉ db.situacoes.map (fun x => x.pk) := by
      intro hmem
      obtain ⟨r, hr, hrpk⟩ := List.mem_map.mp hmem
      have hb : (r.pk == s.pk) = true := by simp [hrpk]
      exact hc (List.any_eq_true.mpr ⟨r, hr, hb⟩)
    rw [List.nodup_append]
    refine ⟨h, by simp, ?_⟩
    intro a ha hb
    exact hnot (by rwa [List.mem_singleton.mp hb] at ha)

theorem pks_situacaoClearPadrao (db : DB) (s : Situacao) :
    ((situacaoClearPadrao db s).situacoes).map (fun x => x.pk)
      = db.situacoes.map (fun x => x.pk) := by
  unfold situacaoClearPadrao
  split
  · exact map_pk_of_preserve _ (clearOtherPadrao_pk s) db.situacoes
  · rfl

theorem pks_situacaoClearPendente (db : DB) (s : Situacao) :
    ((situacaoClearPendente db s).situacoes).map (fun x => x.pk)
      = db.situacoes.map (fun x => x.pk) := by
  unfold situacaoClearPendente
  split
  · exact map_pk_of_preserve _ (clearOtherPendente_pk s) db.situacoes
  · rfl

/-- A full situacao save keeps the pk column duplicate-free. -/
theorem nodup_situacaoSave (db : DB) (s : Situacao) (h : nodupPks db) :
    nodupPks (situacaoSave db s) := by
  unfold situacaoSave situacao_post_save
  show (((situacaoClearPendente (situacaoClearPadrao (upsertSituacao db s) s) s).situacoes).map
    (fun x => x.pk)).Nodup
  rw [pks_situacaoClearPendente, pks_situacaoClearPadrao]
  exact nodup_upsertSituacao db s h

/-- With a duplicate-free pk column, at most one row matches a given pk. -/
theorem filter_pk_le_one (k : Nat) :
    ∀ l : List Situacao, (l.map (fun x => x.pk)).Nodup →
      (l.filter (fun t => t.pk == k)).length ≤ 1 := by
  intro l
  induction l with
  | nil => intro _h; simp
  | cons a t ih =>
    intro h
    rw [List.map_cons, List.nodup_cons] at h
    obtain ⟨hna, hnt⟩ := h
    simp only [List.filter_cons]
    by_cases hk : (a.pk == k) = true
    · rw [if_pos hk]
      have hemp : t.filter (fun t => t.pk == k) = [] := by
        rw [List.filter_eq_nil_iff]
        intro x hx hxk
        have hxa : x.pk = a.pk := by
          have h1 : x.pk = k := by simpa using hxk
          have h2 : a.pk = k := by simpa using hk
          rw [h1, h2]
        exact hna (List.mem_map.mpr ⟨x, hx, hxa⟩)
      rw [hemp]
      simp
    · rw [if_neg hk]
      exact ih hnt

/-- After clearing `padrao` on every row of another pk, the rows still flagged
`padrao` are among the rows with the saved pk. -/
theorem clearP_count_le (s : Situacao) :
    ∀ l : List Situacao,
      ((l.map (clearOtherPadrao s)).filter (fun t => t.padrao)).length
        ≤ (l.filter (fun t => t.pk == s.pk)).length := by
  intro l
  induction l with
  | nil => simp
  | cons a t ih =>
    simp only [List.map_cons, List.filter_cons]
    by_cases hpk : (a.pk == s.pk) = true
    · rw [if_pos hpk]
      have hbne : (a.pk != s.pk) = false := by simp [bne, hpk]
      have hh : clearOtherPadrao s a = a := by
        unfold clearOtherPadrao
        rw [if_neg (by simp [hbne])]
      rw [hh]
      by_cases hpad : a.padrao = true
      · rw [if_pos hpad]
        simp only [List.length_cons]
        exact Nat.succ_le_succ ih
      · rw [if_neg hpad]
        simp only [List.length_cons]
        exact Nat.le_succ_of_le ih
    · rw [if_neg hpk]
      have hbeq : (a.pk == s.pk) = false := by
        cases hb : (a.pk == s.pk) with
        | false => rfl
        | true => exact absurd hb hpk
      by_cases hpad : a.padrao = true
      · have hh : clearOtherPadrao s a = { a with padrao := false } := by
          unfold clearOtherPadrao
          rw [if_pos (by simp [bne, hbeq, hpad])]
        rw [hh, if_neg (by simp)]
        exact ih
      · have hh : clearOtherPadrao s a = a := by
          unfold clearOtherPadrao
          rw [if_neg (by simp [hpad])]
        rw [hh, if_neg hpad]
        exact ih

/-- Mirror of `clearP_count_le` for the pending flag. -/
theorem clearQ_count_le (s : Situacao) :
    ∀ l : List Situacao,
      ((l.map (clearOtherPendente s)).filter (fun t => t.pendente)).length
        ≤ (l.filter (fun t => t.pk == s.pk)).length := by
  intro l
  induction l with
  | nil => simp
  | cons a t ih =>
    simp only [List.map_cons, List.filter_cons]
    by_cases hpk : (a.pk == s.pk) = true
    · rw [if_pos hpk]
      have hbne : (a.pk != s.pk) = false := by simp [bne, hpk]
      have hh : clearOtherPendente s a = a := by
        unfold clearOtherPendente
        rw [if_neg (by simp [hbne])]
      rw [hh]
      by_cases hpen : a.pendente = true
      · rw [if_pos hpen]
        simp only [List.length_cons]
        exact Nat.succ_le_succ ih
      · rw [if_neg hpen]
        simp only [List.length_cons]
        exact Nat.le_succ_of_le ih
    · rw [if_neg hpk]
      have hbeq : (a.pk == s.pk) = false := by
        cases hb : (a.pk == s.pk) with
        | false => rfl
        | true => exact absurd hb hpk
      by_cases hpen : a.pendente = true
      · have hh : clearOtherPendente s a = { a with pendente := false } := by
          unfold clearOtherPendente
          rw [if_pos (by simp [bne, hbeq, hpen])]
        rw [hh, if_neg (by simp)]
        exact ih
      · have hh : clearOtherPendente s a = a := by
          unfold clearOtherPendente
          rw [if_neg (by simp [hpen])]
        rw [hh, if_neg hpen]
        exact ih

/-- Clearing pending flags does not change which rows are flagged default. -/
theorem clearQ_padrao_count (s : Situacao) :
    ∀ l : List Situacao,
      ((l.map (clearOtherPendente s)).filter (fun t => t.padrao)).length
        = (l.filter (fun t => t.padrao)).length := by
  intro l
  induction l with
  | nil => rfl
  | cons a t ih =>
    simp only [List.map_cons, List.filter_cons, clearOtherPendente_padrao]
    by_cases hp : a.padrao = true
    · rw [if_pos hp, if_pos hp]
      simp [ih]
    · rw [if_neg hp, if_neg hp]
      exact ih

/-- Clearing default flags does not change which rows are flagged pending. -/
theorem clearP_pendente_count (s : Situacao) :
    ∀ l : List Situacao,
      ((l.map (clearOtherPadrao s)).filter (fun t => t.pendente)).length
        = (l.filter (fun t => t.pendente)).length := by
  intro l
  induction l with
  | nil => rfl
  | cons a t ih =>
    simp only [List.map_cons, List.filter_cons, clearOtherPadrao_pendente]
    by_cases hp : a.pendente = true
    · rw [if_pos hp, if_pos hp]
      simp [ih]
    · rw [if_neg hp, if_neg hp]
      exact ih

theorem countPadrao_clearPendente (db : DB) (s : Situacao) :
    countPadrao (situacaoClearPendente db s) = countPadrao db := by
  unfold situacaoClearPendente
  split
  · exact clearQ_padrao_count s db.situacoes
  · rfl

theorem countPendente_clearPadrao (db : DB) (s : Situacao) :
    countPendente (situacaoClearPadrao db s) = countPendente db := by
  unfold situacaoClearPadrao
  split
  · exact clearP_pendente_count s db.situacoes
  · rfl

/-- Saving a situacao flagged as default leaves at most one defaulted row. -/
theorem countPadrao_establish (db : DB) (s : Situacao) (hs : s.padrao = true)
    (h : nodupPks db) : countPadrao (situacaoSave db s) ≤ 1 := by
  unfold situacaoSave situacao_post_save
  rw [countPadrao_clearPendente]
  unfold situacaoClearPadrao
  rw [if_pos hs]
  show (((upsertSituacao db s).situacoes.map (clearOtherPadrao s)).filter
    (fun t => t.padrao)).length ≤ 1
  exact le_trans (clearP_count_le s (upsertSituacao db s).situacoes)
    (filter_pk_le_one s.pk (upsertSituacao db s).situacoes
      (nodup_upsertSituacao db s h))

/-- Saving a situacao flagged as pending leaves at most one pending row. -/
theorem countPendente_establish (db : DB) (s : Situacao) (hs : s.pendente = true)
    (h : nodupPks db) : countPendente (situacaoSave db s) ≤ 1 := by
  unfold situacaoSave situacao_post_save situacaoClearPendente
  rw [if_pos hs]
  show (((situacaoClearPadrao (upsertSituacao db s) s).situacoes.map
    (clearOtherPendente s)).filter (fun t => t.pendente)).length ≤ 1
  refine le_trans
    (clearQ_count_le s (situacaoClearPadrao (upsertSituacao db s) s).situacoes)
    (filter_pk_le_one s.pk _ ?_)
  show (((situacaoClearPadrao (upsertSituacao db s) s).situacoes).map
    (fun x => x.pk)).Nodup
  rw [pks_situacaoClearPadrao]
  exact nodup_upsertSituacao db s h

/-- Writing a row that is not flagged default cannot increase the number of
defaulted rows. -/
theorem countPadrao_upsert_le (db : DB) (s : Situacao) (hs : s.padrao = false) :
    countPadrao (upsertSituacao db s) ≤ countPadrao db := by
  unfold upsertSituacao countPadrao
  by_cases hc : db.situacoes.any (fun r => r.pk == s.pk) = true
  · rw [if_pos hc]
    show ((db.situacoes.map (fun r => if r.pk == s.pk then s else r)).filter
      (fun t => t.padrao)).length ≤ (db.situacoes.filter (fun t => t.padrao)).length
    clear hc
    induction db.situacoes with
    | nil => simp
    | cons a t ih =>
      simp only [List.map_cons, List.filter_cons]
      by_cases hpk : (a.pk == s.pk) = true
      · rw [if_pos hpk, if_neg (by simp [hs])]
        by_cases hpad : a.padrao = true
        · rw [if_pos hpad]
          simp only [List.length_cons]
          exact Nat.le_succ_of_le ih
        · rw [if_neg hpad]
          exact ih
      · rw [if_neg hpk]
        by_cases hpad : a.padrao = true
        · rw [if_pos hpad, if_pos hpad]
          simp only [List.length_cons]
          exact Nat.succ_le_succ ih
        · rw [if_neg hpad, if_neg hpad]
          exact ih
  · rw [if_neg hc]
    show (((db.situacoes ++ [s])).filter (fun t => t.padrao)).length
      ≤ (db.situacoes.filter (fun t => t.padrao)).length
    rw [List.filter_append]
    simp [hs]

/-- Writing a row that is not flagged pending cannot increase the number of
pending rows. -/
theorem countPendente_upsert_le (db : DB) (s : Situacao) (hs : s.pendente = false) :
    countPendente (upsertSituacao db s) ≤ countPendente db := by
  unfold upsertSituacao countPendente
  by_cases hc : db.situacoes.any (fun r => r.pk == s.pk) = true
  · rw [if_pos hc]
    show ((db.situacoes.map (fun r => if r.pk == s.pk then s else r)).filter
      (fun t => t.pendente)).length ≤ (db.situacoes.filter (fun t => t.pendente)).length
    clear hc
    induction db.situacoes with
    | nil => simp
    | cons a t ih =>
      simp only [List.map_cons, List.filter_cons]
      by_cases hpk : (a.pk == s.pk) = true
      · rw [if_pos hpk, if_neg (by simp [hs])]
        by_cases hpen : a.pendente = true
        · rw [if_pos hpen]
          simp only [List.length_cons]
          exact Nat.le_succ_of_le ih
        · rw [if_neg hpen]
          exact ih
      · rw [if_neg hpk]
        by_cases hpen : a.pendente = true
        · rw [if_pos hpen, if_pos hpen]
          simp only [List.length_cons]
          exact Nat.succ_le_succ ih
        · rw [if_neg hpen, if_neg hpen]
          exact ih
  · rw [if_neg hc]
    show (((db.situacoes ++ [s])).filter (fun t => t.pendente)).length
      ≤ (db.situacoes.filter (fun t => t.pendente)).length
    rw [List.filter_append]
    simp [hs]

/-- Any situacao save preserves "at most one defaulted row". -/
theorem countPadrao_preserve (db : DB) (s : Situacao) (h : nodupPks db)
    (hle : countPadrao db ≤ 1) : countPadrao (situacaoSave db s) ≤ 1 := by
  by_cases hs : s.padrao = true
  · exact countPadrao_establish db s hs h
  · have hs' : s.padrao = false := by
      cases hb : s.padrao with
      | false => rfl
      | true => exact absurd hb hs
    unfold situacaoSave situacao_post_save
    rw [countPadrao_clearPendente]
    unfold situacaoClearPadrao
    rw [if_neg (by simp [hs'])]
    exact le_trans (countPadrao_upsert_le db s hs') hle

/-- Any situacao save preserves "at most one pending row". -/
theorem countPendente_preserve (db : DB) (s : Situacao) (h : nodupPks db)
    (hle : countPendente db ≤ 1) : countPendente (situacaoSave db s) ≤ 1 := by
  by_cases hs : s.pendente = true
  · exact countPendente_establish db s hs h
  · have hs' : s.pendente = false := by
      cases hb : s.pendente with
      | false => rfl
      | true => exact absurd hb hs
    unfold situacaoSave situacao_post_save situacaoClearPendente
    rw [if_neg (by simp [hs'])]
    rw [countPendente_clearPadrao]
    exact le_trans (countPendente_upsert_le db s hs') hle

theorem foldl_nodupPks :
    ∀ (ss : List Situacao) (db : DB), nodupPks db →
      nodupPks (ss.foldl situacaoSave db) := by
  intro ss
  induction ss with
  | nil => intro db h; exact h
  | cons a t ih =>
    intro db h
    rw [List.foldl_cons]
    exact ih (situacaoSave db a) (nodup_situacaoSave db a h)

theorem foldl_countPadrao_preserve :
    ∀ (ss : List Situacao) (db : DB), nodupPks db → countPadrao db ≤ 1 →
      countPadrao (ss.foldl situacaoSave db) ≤ 1 := by
  intro ss
  induction ss with
  | nil => intro db _ h; exact h
  | cons a t ih =>
    intro db hn h
    rw [List.foldl_cons]
    exact ih (situacaoSave db a) (nodup_situacaoSave db a hn)
      (countPadrao_preserve db a hn h)

theorem foldl_countPendente_preserve :
    ∀ (ss : List Situacao) (db : DB), nodupPks db → countPendente db ≤ 1 →
      countPendente (ss.foldl situacaoSave db) ≤ 1 := by
  intro ss
  induction ss with
  | nil => intro db _ h; exact h
  | cons a t ih =>
    intro db hn h
    rw [List.foldl_cons]
    exact ih (situacaoSave db a) (nodup_situacaoSave db a hn)
      (countPendente_preserve db a hn h)

/-- After clearing, every row still flagged default carries the saved pk. -/
theorem clearP_all (s : Situacao) (l : List Situacao) (u : Situacao)
    (hu : u ∈ l.map (clearOtherPadrao s)) (hpad : u.padrao = true) :
    u.pk = s.pk := by
  obtain ⟨r, _, hru⟩ := List.mem_map.mp hu
  subst hru
  unfold clearOtherPadrao at hpad ⊢
  by_cases hc : (r.pk != s.pk && r.padrao) = true
  · rw [if_pos hc] at hpad
    simp at hpad
  · rw [if_neg hc] at hpad ⊢
    have hbeq : (r.pk == s.pk) = true := by
      cases hb : (r.pk == s.pk) with
      | true => rfl
      | false =>
        exact absurd (by simp [bne, hb, hpad]) hc
    simpa using hbeq

/-- After clearing, every row still flagged pending carries the saved pk. -/
theorem clearQ_all (s : Situacao) (l : List Situacao) (u : Situacao)
    (hu : u ∈ l.map (clearOtherPendente s)) (hpen : u.pendente = true) :
    u.pk = s.pk := by
  obtain ⟨r, _, hru⟩ := List.mem_map.mp hu
  subst hru
  unfold clearOtherPendente at hpen ⊢
  by_cases hc : (r.pk != s.pk && r.pendente) = true
  · rw [if_pos hc] at hpen
    simp at hpen
  · rw [if_neg hc] at hpen ⊢
    have hbeq : (r.pk == s.pk) = true := by
      cases hb : (r.pk == s.pk) with
      | true => rfl
      | false =>
        exact absurd (by simp [bne, hb, hpen]) hc
    simpa using hbeq

/-- C6: after any sequence of situacao saves that contains a save marking a
row as default (resp. pending), at most one situacao is flagged default
(resp. pending); and a single save marking a situacao as default (resp.
pending) clears the flag on every other row — any still-flagged row carries
the saved pk. -/
theorem claim6_single_holder (db : DB) (ss : List Situacao) (s : Situacao)
    (hnodup : nodupPks db) :
    ((∃ u ∈ ss, u.padrao = true) → countPadrao (ss.foldl situacaoSave db) ≤ 1)
    ∧ ((∃ u ∈ ss, u.pendente = true) → countPendente (ss.foldl situacaoSave db) ≤ 1)
    ∧ (s.padrao = true →
        ∀ u ∈ (situacaoSave db s).situacoes, u.padrao = true → u.pk = s.pk)
    ∧ (s.pendente = true →
        ∀ u ∈ (situacaoSave db s).situacoes, u.pendente = true → u.pk = s.pk) := by
  refine ⟨?_, ?_, ?_, ?_⟩
  · -- the default count, by induction over the sequence
    intro hex
    induction ss generalizing db with
    | nil =>
      obtain ⟨u, hu, _⟩ := hex
      exact absurd hu (List.not_mem_nil u)
    | cons a t ih =>
      obtain ⟨u, hu, hup⟩ := hex
      rw [List.foldl_cons]
      rcases List.mem_cons.mp hu with h1 | h2
      · subst h1
        exact foldl_countPadrao_preserve t (situacaoSave db u)
          (nodup_situacaoSave db u hnodup) (countPadrao_establish db u hup hnodup)
      · exact ih (situacaoSave db a) (nodup_situacaoSave db a hnodup) ⟨u, h2, hup⟩
  · intro hex
    induction ss generalizing db with
    | nil =>
      obtain ⟨u, hu, _⟩ := hex
      exact absurd hu (List.not_mem_nil u)
    | cons a t ih =>
      obtain ⟨u, hu, hup⟩ := hex
      rw [List.foldl_cons]
      rcases List.mem_cons.mp hu with h1 | h2
      · subst h1
        exact foldl_countPendente_preserve t (situacaoSave db u)
          (nodup_situacaoSave db u hnodup) (countPendente_establish db u hup hnodup)
      · exact ih (situacaoSave db a) (nodup_situacaoSave db a hnodup) ⟨u, h2, hup⟩
  · -- a default-marking save clears the flag everywhere else
    intro hs u hu hupad
    unfold situacaoSave situacao_post_save situacaoClearPendente at hu
    by_cases hp : s.pendente = true
    · rw [if_pos hp] at hu
      obtain ⟨v, hv, hvu⟩ := List.mem_map.mp hu
      subst hvu
      rw [clearOtherPendente_padrao] at hupad
      rw [clearOtherPendente_pk]
      unfold situacaoClearPadrao at hv
      rw [if_pos hs] at hv
      exact clearP_all s _ v hv hupad
    · rw [if_neg hp] at hu
      unfold situacaoClearPadrao at hu
      rw [if_pos hs] at hu
      exact clearP_all s _ u hu hupad
  · intro hp u hu hupen
    unfold situacaoSave situacao_post_save situacaoClearPendente at hu
    rw [if_pos hp] at hu
    exact clearQ_all s _ u hu hupen

/-- Witness for C6 on the corrupted registry `exFlags` (two rows, both flagged
default and pending): one save of a new default+pending situacao restores both
single-holder invariants. -/
theorem claim6_witness :
    ((∃ u ∈ [(⟨3, "C", true, true⟩ : Situacao)], u.padrao = true) →
      countPadrao ([(⟨3, "C", true, true⟩ : Situacao)].foldl situacaoSave exFlags) ≤ 1)
    ∧ ((∃ u ∈ [(⟨3, "C", true, true⟩ : Situacao)], u.pendente = true) →
      countPendente ([(⟨3, "C", true, true⟩ : Situacao)].foldl situacaoSave exFlags) ≤ 1)
    ∧ ((⟨3, "C", true, true⟩ : Situacao).padrao = true →
        ∀ u ∈ (situacaoSave exFlags ⟨3, "C", true, true⟩).situacoes,
          u.padrao = true → u.pk = 3)
    ∧ ((⟨3, "C", true, true⟩ : Situacao).pendente = true →
        ∀ u ∈ (situacaoSave exFlags ⟨3, "C", true, true⟩).situacoes,
          u.pendente = true → u.pk = 3) :=
  claim6_single_holder exFlags [⟨3, "C", true, true⟩] ⟨3, "C", true, true⟩
    (by unfold nodupPks; decide)

/-! ### The pendencia state machine -/

theorem findPendencia_upsert (db : DB) (p : Pendencia) :
    findPendencia (upsertPendencia db p) p.pk = some p := by
  unfold findPendencia upsertPendencia
  by_cases h : db.pendencias.any (fun r => r.pk == p.pk) = true
  · rw [if_pos h]
    exact find?_map_replace _ p (by simp) db.pendencias h
  · rw [if_neg h]
    have h' : db.pendencias.any (fun r => r.pk == p.pk) = false := by
      cases hb : db.pendencias.any (fun r => r.pk == p.pk) with
      | false => rfl
      | true => exact absurd hb h
    exact find?_append_one _ p (by simp) db.pendencias h'

theorem upsertPendencia_demandas (db : DB) (p : Pendencia) :
    (upsertPendencia db p).demandas = db.demandas := by
  unfold upsertPendencia
  split <;> rfl

theorem upsertPendencia_situacoes (db : DB) (p : Pendencia) :
    (upsertPendencia db p).situacoes = db.situacoes := by
  unfold upsertPendencia
  split <;> rfl

theorem resolveStamp_demandas (now : Nat) (db : DB) (p : Pendencia) :
    (pendenciaResolveStamp now db p).demandas = db.demandas := by
  unfold pendenciaResolveStamp
  split <;> rfl

theorem resolveStamp_situacoes (now : Nat) (db : DB) (p : Pendencia) :
    (pendenciaResolveStamp now db p).situacoes = db.situacoes := by
  unfold pendenciaResolveStamp
  split <;> rfl

theorem reopenStamp_demandas (db : DB) (p : Pendencia) :
    (pendenciaReopenStamp db p).demandas = db.demandas := by
  unfold pendenciaReopenStamp
  split <;> rfl

theorem reopenStamp_situacoes (db : DB) (p : Pendencia) :
    (pendenciaReopenStamp db p).situacoes = db.situacoes := by
  unfold pendenciaReopenStamp
  split <;> rfl

theorem resolveTask_pendencias (db : DB) (p : Pendencia) :
    (pendenciaResolveTask db p).pendencias = db.pendencias := by
  unfold pendenciaResolveTask
  split <;> rfl

theorem reopenTask_pendencias (db : DB) (p : Pendencia) :
    (pendenciaReopenTask db p).pendencias = db.pendencias := by
  unfold pendenciaReopenTask
  split <;> rfl

/-- `find?` by the written pk after a pk-guarded pendencia row update. -/
theorem findPendencia_updateRows (db : DB) (k : Nat) (f : Pendencia → Pendencia)
    (hf : ∀ q, (f q).pk = q.pk) :
    findPendencia (updatePendRows db k f) k = (findPendencia db k).map f := by
  unfold findPendencia updatePendRows
  exact find?_map_guard _ f (fun r => by simp [hf r]) db.pendencias

/-- `find?` by the written pk after a pk-guarded demanda row update. -/
theorem findDemanda_updateRows (db : DB) (k : Nat) (f : Demanda → Demanda)
    (hf : ∀ q, (f q).pk = q.pk) :
    findDemanda (updateDemandaRows db k f) k = (findDemanda db k).map f := by
  unfold findDemanda updateDemandaRows
  exact find?_map_guard _ f (fun r => by simp [hf r]) db.demandas

theorem reopenBranch_was_false (db : DB) (p : Pendencia) :
    pendenciaReopenBranch db p false = db := by
  unfold pendenciaReopenBranch
  simp

theorem resolveBranch_was_true (now : Nat) (db : DB) (p : Pendencia) :
    pendenciaResolveBranch now db p true = db := by
  unfold pendenciaResolveBranch
  simp

/-- The `False -> True` effects of `pendencia_post_save` after the row write:
the stored pendencia's `resolvido_em` is stamped with `now` exactly when the
instance had none; when an "exec"-named situacao exists the owning demanda row
gets it and its closure date is cleared; when none exists the demanda table is
untouched. -/
theorem resolve_effects (now : Nat) (db : DB) (p : Pendencia)
    (hres : p.resolvida = true) :
    ((findPendencia (pendencia_post_save now (upsertPendencia db p) p false) p.pk).map
        (fun q => q.resolvido_em)
      = some (if p.resolvido_em.isNone then some now else p.resolvido_em))
    ∧ (∀ e, firstExec db = some e →
        findDemanda (pendencia_post_save now (upsertPendencia db p) p false) p.demanda
          = (findDemanda db p.demanda).map
              (fun r => { r with situacao := some e.pk, data_fechamento := none }))
    ∧ (firstExec db = none →
        (pendencia_post_save now (upsertPendencia db p) p false).demandas
          = db.demandas) := by
  have hbranch : pendencia_post_save now (upsertPendencia db p) p false
      = pendenciaResolveTask (pendenciaResolveStamp now (upsertPendencia db p) p) p := by
    unfold pendencia_post_save pendenciaResolveBranch
    rw [if_pos (by simp [hres])]
    exact reopenBranch_was_false _ p
  rw [hbranch]
  have hfindP : findPendencia (pendenciaResolveStamp now (upsertPendencia db p) p) p.pk
      = some (if p.resolvido_em.isNone then { p with resolvido_em := some now }
              else p) := by
    unfold pendenciaResolveStamp
    by_cases hn : p.resolvido_em.isNone = true
    · rw [if_pos hn, if_pos hn]
      rw [findPendencia_updateRows (upsertPendencia db p) p.pk
          (fun q => { q with resolvido_em := some now }) (fun q => rfl),
        findPendencia_upsert]
      rfl
    · rw [if_neg hn, if_neg hn]
      exact findPendencia_upsert db p
  have hsit : (pendenciaResolveStamp now (upsertPendencia db p) p).situacoes
      = db.situacoes := by
    rw [resolveStamp_situacoes, upsertPendencia_situacoes]
  have hdem : (pendenciaResolveStamp now (upsertPendencia db p) p).demandas
      = db.demandas := by
    rw [resolveStamp_demandas, upsertPendencia_demandas]
  have hexec : firstExec (pendenciaResolveStamp now (upsertPendencia db p) p)
      = firstExec db := by
    unfold firstExec
    rw [hsit]
  refine ⟨?_, ?_, ?_⟩
  · have hpend : (pendenciaResolveTask
        (pendenciaResolveStamp now (upsertPendencia db p) p) p).pendencias
        = (pendenciaResolveStamp now (upsertPendencia db p) p).pendencias :=
      resolveTask_pendencias _ p
    unfold findPendencia
    rw [hpend]
    unfold findPendencia at hfindP
    rw [hfindP]
    by_cases hn : p.resolvido_em.isNone = true
    · rw [if_pos hn, if_pos hn]
      rfl
    · rw [if_neg hn, if_neg hn]
      rfl
  · intro e he
    unfold pendenciaResolveTask
    simp only [hexec, he]
    rw [findDemanda_updateRows (pendenciaResolveStamp now (upsertPendencia db p) p)
        p.demanda
        (fun r => { r with situacao := some e.pk, data_fechamento := none })
        (fun q => rfl)]
    unfold findDemanda
    rw [hdem]
  · intro he
    unfold pendenciaResolveTask
    simp only [hexec, he]
    exact hdem

/-- C7: resolving a previously open pendencia stamps `resolvido_em` with the
current time exactly when it was unset (a set value is preserved), and, when
an "exec"-named situacao exists, moves the owning demanda to it clearing its
closure date; when none exists the demanda table is untouched and no error is
raised (the save is total). -/
theorem claim7_resolve (now : Nat) (db : DB) (p old : Pendencia)
    (hold : findPendencia db p.pk = some old) (hwas : old.resolvida = false)
    (hnow : p.resolvida = true) :
    ((findPendencia (pendenciaSave now db p) p.pk).map (fun q => q.resolvido_em)
      = some (if p.resolvido_em.isNone then some now else p.resolvido_em))
    ∧ (∀ e, firstExec db = some e →
        findDemanda (pendenciaSave now db p) p.demanda
          = (findDemanda db p.demanda).map
              (fun r => { r with situacao := some e.pk, data_fechamento := none }))
    ∧ (firstExec db = none → (pendenciaSave now db p).demandas = db.demandas) := by
  have hpre : pendencia_pre_save db p = false := by
    simp only [pendencia_pre_save, hold, hwas]
  unfold pendenciaSave
  rw [hpre]
  exact resolve_effects now db p hnow

/-- Witness for C7 on `exPend`: resolving open pendencia 1 stamps it with 77;
`exPend` has the "exec"-named situacao 4. -/
theorem claim7_witness :
    ((findPendencia (pendenciaSave 77 exPend ⟨1, 10, "abc", true, none⟩) 1).map
        (fun q => q.resolvido_em)
      = some (if (none : Option Nat).isNone then some 77 else none))
    ∧ (∀ e, firstExec exPend = some e →
        findDemanda (pendenciaSave 77 exPend ⟨1, 10, "abc", true, none⟩) 10
          = (findDemanda exPend 10).map
              (fun r => { r with situacao := some e.pk, data_fechamento := none }))
    ∧ (firstExec exPend = none →
        (pendenciaSave 77 exPend ⟨1, 10, "abc", true, none⟩).demandas
          = exPend.demandas) :=
  claim7_resolve 77 exPend ⟨1, 10, "abc", true, none⟩ ⟨1, 10, "abc", false, none⟩
    (by decide) (by decide) (by decide)

/-- C10: a pendencia created with `resolvida = true` (no prior persisted row)
fires the open-to-resolved effects on creation, because `pendencia_pre_save`
treats a record with no prior state as previously unresolved. -/
theorem claim10_create (now : Nat) (db : DB) (p : Pendencia)
    (hnew : findPendencia db p.pk = none) (hnow : p.resolvida = true) :
    ((findPendencia (pendenciaSave now db p) p.pk).map (fun q => q.resolvido_em)
      = some (if p.resolvido_em.isNone then some now else p.resolvido_em))
    ∧ (∀ e, firstExec db = some e →
        findDemanda (pendenciaSave now db p) p.demanda
          = (findDemanda db p.demanda).map
              (fun r => { r with situacao := some e.pk, data_fechamento := none }))
    ∧ (firstExec db = none → (pendenciaSave now db p).demandas = db.demandas) := by
  have hpre : pendencia_pre_save db p = false := by
    simp only [pendencia_pre_save, hnew]
  unfold pendenciaSave
  rw [hpre]
  exact resolve_effects now db p hnow

/-- Witness for C10 on `exPend`: creating pendencia 2 already resolved stamps
it with 55 and moves demanda 10 to the "exec"-named situacao. -/
theorem claim10_witness :
    ((findPendencia (pendenciaSave 55 exPend ⟨2, 10, "new", true, none⟩) 2).map
        (fun q => q.resolvido_em)
      = some (if (none : Option Nat).isNone then some 55 else none))
    ∧ (∀ e, firstExec exPend = some e →
        findDemanda (pendenciaSave 55 exPend ⟨2, 10, "new", true, none⟩) 10
          = (findDemanda exPend 10).map
              (fun r => { r with situacao := some e.pk, data_fechamento := none }))
    ∧ (firstExec exPend = none →
        (pendenciaSave 55 exPend ⟨2, 10, "new", true, none⟩).demandas
          = exPend.demandas) :=
  claim10_create 55 exPend ⟨2, 10, "new", true, none⟩ (by decide) (by decide)

/-- The `True -> False` effects of `pendencia_post_save` after the row write:
the stored pendencia's `resolvido_em` ends up cleared; when a "pend"-named
situacao exists the owning demanda row gets it and its closure date is
cleared; when none exists the demanda table is untouched. -/
theorem reopen_effects (now : Nat) (db : DB) (p : Pendencia)
    (hres : p.resolvida = false) :
    ((findPendencia (pendencia_post_save now (upsertPendencia db p) p true) p.pk).map
        (fun q => q.resolvido_em) = some none)
    ∧ (∀ s, firstPendSit db = some s →
        findDemanda (pendencia_post_save now (upsertPendencia db p) p true) p.demanda
          = (findDemanda db p.demanda).map
              (fun r => { r with situacao := some s.pk, data_fechamento := none }))
    ∧ (firstPendSit db = none →
        (pendencia_post_save now (upsertPendencia db p) p true).demandas
          = db.demandas) := by
  have hbranch : pendencia_post_save now (upsertPendencia db p) p true
      = pendenciaReopenTask (pendenciaReopenStamp (upsertPendencia db p) p) p := by
    unfold pendencia_post_save
    rw [resolveBranch_was_true]
    unfold pendenciaReopenBranch
    rw [if_pos (by simp [hres])]
  rw [hbranch]
  have hfindP : findPendencia (pendenciaReopenStamp (upsertPendencia db p) p) p.pk
      = some (if p.resolvido_em.isSome then { p with resolvido_em := none }
              else p) := by
    unfold pendenciaReopenStamp
    by_cases hn : p.resolvido_em.isSome = true
    · rw [if_pos hn, if_pos hn]
      rw [findPendencia_updateRows (upsertPendencia db p) p.pk
          (fun q => { q with resolvido_em := none }) (fun q => rfl),
        findPendencia_upsert]
      rfl
    · rw [if_neg hn, if_neg hn]
      exact findPendencia_upsert db p
  have hsit : (pendenciaReopenStamp (upsertPendencia db p) p).situacoes
      = db.situacoes := by
    rw [reopenStamp_situacoes, upsertPendencia_situacoes]
  have hdem : (pendenciaReopenStamp (upsertPendencia db p) p).demandas
      = db.demandas := by
    rw [reopenStamp_demandas, upsertPendencia_demandas]
  have hpsit : firstPendSit (pendenciaReopenStamp (upsertPendencia db p) p)
      = firstPendSit db := by
    unfold firstPendSit
    rw [hsit]
  refine ⟨?_, ?_, ?_⟩
  · unfold findPendencia
    rw [reopenTask_pendencias]
    unfold findPendencia at hfindP
    rw [hfindP]
    by_cases hn : p.resolvido_em.isSome = true
    · rw [if_pos hn]
      rfl
    · rw [if_neg hn]
      have hnone : p.resolvido_em = none := by
        cases hre : p.resolvido_em with
        | none => rfl
        | some v => exact absurd (by rw [hre]; rfl) hn
      simp [hnone]
  · intro s hs
    unfold pendenciaReopenTask
    simp only [hpsit, hs]
    rw [findDemanda_updateRows (pendenciaReopenStamp (upsertPendencia db p) p)
        p.demanda
        (fun r => { r with situacao := some s.pk, data_fechamento := none })
        (fun q => rfl)]
    unfold findDemanda
    rw [hdem]
  · intro hs
    unfold pendenciaReopenTask
    simp only [hpsit, hs]
    exact hdem

/-- C8: reopening a previously resolved pendencia clears `resolvido_em` and,
when a "pend"-named situacao exists, moves the owning demanda to it clearing
its closure date; when none exists the demanda table is untouched and no error
is raised (the save is total). -/
theorem claim8_reopen (now : Nat) (db : DB) (p old : Pendencia)
    (hold : findPendencia db p.pk = some old) (hwas : old.resolvida = true)
    (hnow : p.resolvida = false) :
    ((findPendencia (pendenciaSave now db p) p.pk).map (fun q => q.resolvido_em)
      = some none)
    ∧ (∀ s, firstPendSit db = some s →
        findDemanda (pendenciaSave now db p) p.demanda
          = (findDemanda db p.demanda).map
              (fun r => { r with situacao := some s.pk, data_fechamento := none }))
    ∧ (firstPendSit db = none → (pendenciaSave now db p).demandas = db.demandas) := by
  have hpre : pendencia_pre_save db p = true := by
    simp only [pendencia_pre_save, hold, hwas]
  unfold pendenciaSave
  rw [hpre]
  exact reopen_effects now db p hnow

/-- Witness for C8 on `exPendBack`: reopening resolved pendencia 1 clears its
timestamp; `exPendBack` has the "pend"-named situacao 5. -/
theorem claim8_witness :
    ((findPendencia (pendenciaSave 88 exPendBack ⟨1, 10, "abc", false, some 77⟩) 1).map
        (fun q => q.resolvido_em) = some none)
    ∧ (∀ s, firstPendSit exPendBack = some s →
        findDemanda (pendenciaSave 88 exPendBack ⟨1, 10, "abc", false, some 77⟩) 10
          = (findDemanda exPendBack 10).map
              (fun r => { r with situacao := some s.pk, data_fechamento := none }))
    ∧ (firstPendSit exPendBack = none →
        (pendenciaSave 88 exPendBack ⟨1, 10, "abc", false, some 77⟩).demandas
          = exPendBack.demandas) :=
  claim8_reopen 88 exPendBack ⟨1, 10, "abc", false, some 77⟩ ⟨1, 10, "abc", true, some 77⟩
    (by decide) (by decide) (by decide)

/-- C9: a save of an existing pendencia whose `resolvida` equals the committed
value — detected by `pendencia_pre_save` reading the stored row before the
write — has no side effect: the demanda and situacao tables are untouched and
the stored `resolvido_em` is unchanged (the write itself only carries the
edited fields, e.g. the description). -/
theorem claim9_no_change (now : Nat) (db : DB) (p old : Pendencia)
    (hold : findPendencia db p.pk = some old) (heq : p.resolvida = old.resolvida)
    (hre : p.resolvido_em = old.resolvido_em) :
    (pendenciaSave now db p).demandas = db.demandas
    ∧ (pendenciaSave now db p).situacoes = db.situacoes
    ∧ (findPendencia (pendenciaSave now db p) p.pk).map (fun q => q.resolvido_em)
        = some old.resolvido_em := by
  have hpre : pendencia_pre_save db p = old.resolvida := by
    simp only [pendencia_pre_save, hold]
  have hsave : pendenciaSave now db p = upsertPendencia db p := by
    unfold pendenciaSave
    rw [hpre]
    unfold pendencia_post_save
    have h1 : pendenciaResolveBranch now (upsertPendencia db p) p old.resolvida
        = upsertPendencia db p := by
      unfold pendenciaResolveBranch
      rw [if_neg (by rw [heq]; cases old.resolvida <;> simp)]
    rw [h1]
    unfold pendenciaReopenBranch
    rw [if_neg (by rw [heq]; cases old.resolvida <;> simp)]
  refine ⟨?_, ?_, ?_⟩
  · rw [hsave]
    exact upsertPendencia_demandas db p
  · rw [hsave]
    exact upsertPendencia_situacoes db p
  · rw [hsave, findPendencia_upsert]
    simp [hre]

/-- Witness for C9 on `exPendBack`: editing only the description of resolved
pendencia 1 leaves the demanda table, the situacao table and the stored
timestamp unchanged. -/
theorem claim9_witness :
    (pendenciaSave 99 exPendBack ⟨1, 10, "CHANGED", true, some 77⟩).demandas
        = exPendBack.demandas
    ∧ (pendenciaSave 99 exPendBack ⟨1, 10, "CHANGED", true, some 77⟩).situacoes
        = exPendBack.situacoes
    ∧ (findPendencia (pendenciaSave 99 exPendBack ⟨1, 10, "CHANGED", true, some 77⟩) 1).map
        (fun q => q.resolvido_em) = some (some 77) :=
  claim9_no_change 99 exPendBack ⟨1, 10, "CHANGED", true, some 77⟩
    ⟨1, 10, "abc", true, some 77⟩ (by decide) (by decide) (by decide)

end Datahub
